import Mathlib

/-!
Verification development for the Bot_ORB_Gamma trading bot.

The Python source is shallowly embedded: prices are modelled as exact
decimal rationals (the source converts every float through
Decimal(str(price)) before rounding, and str recovers the decimal
literal for all inputs appearing in the claims, so rational arithmetic
is faithful at every input evaluated here), stateful methods become
explicit state-passing functions, and fallible methods return Option
or Except.
-/

namespace BotORB

/-! ## Decimal rounding helpers (execution/order_manager.py)

Models of the two Decimal rounding modes used by the source:
ROUND_HALF_EVEN (round to nearest integer, ties to the even integer)
and ROUND_DOWN (truncate toward zero). -/

/-- Round a rational to the nearest integer, ties to even
(Decimal ROUND_HALF_EVEN). -/
def roundHalfEvenQ (x : ℚ) : ℤ :=
  let f := ⌊x⌋
  let r := x - (f : ℚ)
  if r < 1/2 then f
  else if 1/2 < r then f + 1
  else if f % 2 = 0 then f else f + 1

/-- Truncate a rational toward zero (Decimal ROUND_DOWN). -/
def truncQ (x : ℚ) : ℤ :=
  if 0 ≤ x then ⌊x⌋ else ⌈x⌉

/-- OrderManager._round_to_tick_size: rounds a price to the nearest
multiple of the tick using Decimal ROUND_HALF_EVEN.  The guard branch
for a non-positive tick returns the price rounded half-even to two
decimals, modelling Python round(price, 2); no claim exercises that
branch with a price whose binary double differs from its decimal
literal. -/
def roundToTickSize (price tickSize : ℚ) : ℚ :=
  if tickSize ≤ 0 then (roundHalfEvenQ (price * 100) : ℚ) / 100
  else
    let numTicks := roundHalfEvenQ (price / tickSize)
    (numTicks : ℚ) * tickSize

/-- OrderManager._round_down_to_tick: always rounds a price DOWN (toward
zero, Decimal ROUND_DOWN) to the nearest multiple of the tick; same
guard branch for a non-positive tick as _round_to_tick_size. -/
def roundDownToTick (price tickSize : ℚ) : ℚ :=
  if tickSize ≤ 0 then (roundHalfEvenQ (price * 100) : ℚ) / 100
  else
    let numTicks := truncQ (price / tickSize)
    (numTicks : ℚ) * tickSize

/-- OrderManager._get_spx_tick_size: 0.05 for premiums below 3.00,
0.10 at or above. -/
def getSpxTickSize (price : ℚ) : ℚ :=
  if price < 3 then 5/100 else 10/100

/-! ## Configuration records (core/config_loader.py, fields used here) -/

structure TrailingStopConfig where
  activation_profit_pct : ℚ
  trail_pct : ℚ
deriving DecidableEq, Repr

structure TradeManagementConfig where
  take_profit_pct : ℚ
  stop_loss_pct : ℚ
  trailing_stop : TrailingStopConfig
deriving DecidableEq, Repr

/-! ## Orders (fields of ibapi.order.Order that the source sets) -/

structure Order where
  orderId : ℤ
  parentId : ℤ
  action : String
  orderType : String
  lmtPrice : ℚ
  auxPrice : ℚ
  totalQuantity : ℚ
  tif : String
  transmit : Bool
deriving DecidableEq, Repr

/-- OrderManager._create_bracket_orders.  Returns the take-profit and
stop-loss child orders for a filled BUY parent, or none for any other
action.  The minTick parameter is accepted but never read by the
source: the tick for each price level is recomputed from
_get_spx_tick_size on that level (the source comments call this the
fix for using a single tick for both levels). -/
def createBracketOrders (cfg : TradeManagementConfig)
    (parentOrderId tpOrderId slOrderId : ℤ) (entryPrice quantity : ℚ)
    (action : String) (minTick : ℚ) : Option (Order × Order) :=
  if action ≠ "BUY" then none
  else
    let _ := minTick
    let tpPriceRaw := entryPrice * (1 + cfg.take_profit_pct / 100)
    let slPriceRaw := entryPrice * (1 - cfg.stop_loss_pct / 100)
    let tpTickSize := getSpxTickSize tpPriceRaw
    let slTickSize := getSpxTickSize slPriceRaw
    let tpPriceSanitized := roundDownToTick tpPriceRaw tpTickSize
    let slPriceSanitized0 := roundDownToTick slPriceRaw slTickSize
    let slPriceSanitized :=
      if slPriceSanitized0 ≥ entryPrice then slPriceSanitized0 - slTickSize
      else slPriceSanitized0
    some
      ({ orderId := tpOrderId, parentId := parentOrderId, action := "SELL",
         orderType := "LMT", lmtPrice := tpPriceSanitized, auxPrice := 0,
         totalQuantity := quantity, tif := "GTC", transmit := false },
       { orderId := slOrderId, parentId := parentOrderId, action := "SELL",
         orderType := "STP", lmtPrice := 0, auxPrice := slPriceSanitized,
         totalQuantity := quantity, tif := "GTC", transmit := true })

/-! ## Signals (models/data_models.py, referenced throughout src) -/

/-- Signal type enum.  The defining module models/data_models.py is not
in the sources; the spec fixes the members as BUY, SELL and HOLD. -/
inductive SignalType where
  | BUY
  | SELL
  | HOLD
deriving DecidableEq, Repr

/-- OrderManager._make_trade_decision: the 4-condition table over
(signal direction, GEX strike versus spot) returning the option right.
The source treats strike equal to spot as NOT above. -/
def makeTradeDecision (signalType : SignalType)
    (spotPrice strikePrice : ℚ) : Option Char :=
  let isBullishSignal : Bool := signalType = SignalType.BUY
  let gexIsAboveSpot : Bool := strikePrice > spotPrice
  if isBullishSignal && gexIsAboveSpot then some 'C'
  else if isBullishSignal && !gexIsAboveSpot then some 'P'
  else if !isBullishSignal && gexIsAboveSpot then some 'C'
  else if !isBullishSignal && !gexIsAboveSpot then some 'P'
  else none

/-! ## Price discovery (OrderManager._fetch_option_price) -/

/-- Market data snapshot as delivered by the connector: each tick field
may be absent, and IB delivers -1 for unavailable data. -/
structure MarketData where
  ask : Option ℚ
  last : Option ℚ
  close : Option ℚ
deriving DecidableEq, Repr

/-- OrderManager._fetch_option_price: prefers ask, falling back to last
and then close, where a step falls through exactly when the value is
absent or the IB sentinel -1; the selected value is returned only when
strictly positive, otherwise the trade is aborted (none). -/
def fetchOptionPrice (marketData : Option MarketData) : Option ℚ :=
  match marketData with
  | none => none
  | some md =>
    let price := md.ask
    let price := if price = none ∨ price = some (-1) then md.last else price
    let price := if price = none ∨ price = some (-1) then md.close else price
    match price with
    | some p => if 0 < p then some p else none
    | none => none

/-- Modelled from the spec: the price-discovery rule exactly as the
claim words it — at EACH step a non-positive or missing value falls
through to the next candidate, and only total unavailability aborts.
Used solely to compare the claim against fetchOptionPrice. -/
def pickPositive (o : Option ℚ) : Option ℚ :=
  match o with
  | some p => if 0 < p then some p else none
  | none => none

/-- Modelled from the spec: full preference chain of the claim. -/
def specPriceDiscovery (marketData : Option MarketData) : Option ℚ :=
  match marketData with
  | none => none
  | some md =>
    (pickPositive md.ask).orElse fun _ =>
      (pickPositive md.last).orElse fun _ => pickPositive md.close

/-! ## Breakout strategy (strategy/breakout.py)

Timestamps are modelled in integer microseconds since the epoch: a
datetime value t has microsecond component t % 1000000 and
second-of-minute component (t / 1000000) % 60. -/

/-- Breakout signal: the source returns the string literals BULLISH,
BEARISH and NO SIGNAL. -/
inductive BreakoutSignal where
  | BULLISH
  | BEARISH
  | NOSIGNAL
deriving DecidableEq, Repr

/-- Real-time OHLCV bar (BarLike protocol). -/
structure RtBar where
  ts : ℕ
  «open» : ℚ
  high : ℚ
  low : ℚ
  close : ℚ
  volume : ℕ
deriving DecidableEq, Repr

/-- BreakoutStrategy.__init__: raises ValueError unless
aggregation_seconds is a multiple of 5, otherwise stores
aggregation_seconds and bars_to_aggregate = aggregation_seconds // 5
(Python floor division and modulo, which Int.ediv and Int.emod mirror
for the positive divisor 5). -/
def breakoutStrategyInit (aggregationSeconds : ℤ) : Except String (ℤ × ℤ) :=
  if aggregationSeconds.emod 5 ≠ 0 then
    Except.error "Aggregation seconds must be a multiple of 5."
  else
    Except.ok (aggregationSeconds, aggregationSeconds.ediv 5)

/-- Mutable state of BreakoutStrategy. -/
structure BreakoutState where
  aggregationSeconds : ℕ
  barsToAggregate : ℕ
  fiveSecondBars : List RtBar
deriving DecidableEq, Repr

/-- Window start the source derives from the FIRST buffered bar: it
subtracts that bar's microsecond component and second-of-minute modulo
aggregation_seconds.  For every window of 60 seconds or more this keeps
the first bar's own minute, which is not the absolute clock boundary
floor(unix_ts / window_seconds) * window_seconds. -/
def windowStartUs (ts aggregationSeconds : ℕ) : ℕ :=
  let usec := ts % 1000000
  let secondOfMinute := (ts / 1000000) % 60
  ts - usec - (secondOfMinute % aggregationSeconds) * 1000000

/-- BreakoutStrategy._aggregate_bars: one candle from the buffered
bars (none when the buffer is empty): timestamp and open of the first
bar, max high, min low, close of the last bar, summed volume. -/
def aggregateBars (bars : List RtBar) : Option RtBar :=
  match bars with
  | [] => none
  | firstBar :: rest =>
    some { ts := firstBar.ts
           «open» := firstBar.«open»
           high := rest.foldl (fun a b => max a b.high) firstBar.high
           low := rest.foldl (fun a b => min a b.low) firstBar.low
           close := (rest.getLastD firstBar).close
           volume := rest.foldl (fun a b => a + b.volume) firstBar.volume }

/-- BreakoutStrategy.check_breakout on an aggregated candle. -/
def checkBreakout (bar : Option RtBar) (highLevel lowLevel : ℚ) :
    BreakoutSignal :=
  match bar with
  | none => BreakoutSignal.NOSIGNAL
  | some b =>
    if b.close > b.«open» ∧ b.low > highLevel then BreakoutSignal.BULLISH
    else if b.close < b.«open» ∧ b.high < lowLevel then BreakoutSignal.BEARISH
    else BreakoutSignal.NOSIGNAL

/-- BreakoutStrategy.add_realtime_bar: if the buffer is non-empty and
the incoming bar falls outside the window derived from the first
buffered bar, the buffer is RESET (discarded without evaluation); the
bar is appended; when the buffer reaches bars_to_aggregate the candle
is aggregated, the buffer cleared and the breakout check run, otherwise
NO SIGNAL. -/
def addRealtimeBar (s : BreakoutState) (bar : RtBar)
    (highLevel lowLevel : ℚ) : BreakoutState × BreakoutSignal :=
  let s1 :=
    match s.fiveSecondBars with
    | [] => s
    | firstBar :: _ =>
      let windowStart := windowStartUs firstBar.ts s.aggregationSeconds
      let windowEnd := windowStart + s.aggregationSeconds * 1000000
      if windowStart ≤ bar.ts ∧ bar.ts < windowEnd then s
      else { s with fiveSecondBars := [] }
  let s2 := { s1 with fiveSecondBars := s1.fiveSecondBars ++ [bar] }
  if s2.fiveSecondBars.length = s2.barsToAggregate then
    ({ s2 with fiveSecondBars := [] },
     checkBreakout (aggregateBars s2.fiveSecondBars) highLevel lowLevel)
  else
    (s2, BreakoutSignal.NOSIGNAL)

/-- Feed a list of bars in arrival order, keeping the last signal. -/
def runBreakout (s : BreakoutState) (bars : List RtBar)
    (highLevel lowLevel : ℚ) : BreakoutState × BreakoutSignal :=
  bars.foldl
    (fun acc b => addRealtimeBar acc.1 b highLevel lowLevel)
    (s, BreakoutSignal.NOSIGNAL)

/-! ## Request-id allocation (ib_client/connector.py) -/

/-- Connector state relevant to request-id allocation. -/
structure ConnectorState where
  isConnected : Bool
  nextRequestId : ℤ
deriving DecidableEq, Repr

/-- IBConnector.get_next_request_id: returns the sentinel -1 without
touching the counter when disconnected; when connected, returns the
current counter and advances it by count, reserving the contiguous
block of count ids. -/
def getNextRequestId (s : ConnectorState) (count : ℤ) : ℤ × ConnectorState :=
  if !s.isConnected then (-1, s)
  else (s.nextRequestId, { s with nextRequestId := s.nextRequestId + count })

/-! ## Milestone trailing stop (OrderManager.manage_open_positions and
OrderManager._modify_stop_loss)

The active-positions map stores independent per-position records and
each management step reads and writes only the record it manages, so
the embedding tracks a single tracked position explicitly. -/

/-- Per-position record kept in active_positions (fields the trailing
stop reads and writes). -/
structure PositionState where
  stop_loss_order_id : ℤ
  take_profit_order_id : ℤ
  min_tick : ℚ
  stop_loss_price : ℚ
  last_milestone_level : ℤ
  avg_cost : Option ℚ
deriving DecidableEq, Repr

/-- OrderManager._modify_stop_loss: recomputes the risk from the entry
price and the milestone level, rounds the stop down to the tick, and
only when the result is strictly greater than the stored stop submits
a modification REUSING the stored stop order id and advances the
stored stop price and milestone level together. -/
def modifyStopLoss (cfg : TradeManagementConfig) (totalQuantity : ℚ)
    (pos : PositionState) (avgCost : ℚ) (milestoneLevel : ℤ) :
    PositionState × Option Order :=
  let initialStopLossPct := cfg.stop_loss_pct
  let trailPctPerMilestone := cfg.trailing_stop.trail_pct
  let totalRiskReduction := (milestoneLevel : ℚ) * trailPctPerMilestone
  let newRiskPct := initialStopLossPct - totalRiskReduction
  let newStopPriceRaw := avgCost * (1 - newRiskPct / 100)
  let newStopPriceSanitized := roundDownToTick newStopPriceRaw pos.min_tick
  if newStopPriceSanitized > pos.stop_loss_price then
    ({ pos with stop_loss_price := newStopPriceSanitized,
                last_milestone_level := milestoneLevel },
     some { orderId := pos.stop_loss_order_id, parentId := 0,
            action := "SELL", orderType := "STP", lmtPrice := 0,
            auxPrice := newStopPriceSanitized,
            totalQuantity := totalQuantity, tif := "GTC", transmit := true })
  else
    (pos, none)

/-- One manage_open_positions step for a tracked position: skips a
position without a recorded (truthy) fill price or without a (truthy)
fetched market price, computes the profit percentage and milestone
level, and calls _modify_stop_loss only when a NEW milestone has been
crossed. -/
def managePosition (cfg : TradeManagementConfig) (totalQuantity : ℚ)
    (pos : PositionState) (currentPrice : Option ℚ) :
    PositionState × Option Order :=
  match pos.avg_cost with
  | none => (pos, none)
  | some avgCost =>
    if avgCost = 0 then (pos, none)
    else
      match currentPrice with
      | none => (pos, none)
      | some cp =>
        if cp = 0 then (pos, none)
        else
          let profitPct := (cp / avgCost - 1) * 100
          let activationPct := cfg.trailing_stop.activation_profit_pct
          let lastMilestoneLevel := pos.last_milestone_level
          if profitPct ≥ activationPct ∧ activationPct > 0 then
            let currentMilestoneLevel := ⌊profitPct / activationPct⌋
            if currentMilestoneLevel > lastMilestoneLevel then
              modifyStopLoss cfg totalQuantity pos avgCost
                currentMilestoneLevel
            else (pos, none)
          else (pos, none)

/-- Repeated management steps over a sequence of fetched prices. -/
def managePositionRun (cfg : TradeManagementConfig) (totalQuantity : ℚ)
    (pos : PositionState) (prices : List (Option ℚ)) : PositionState :=
  prices.foldl (fun p cp => (managePosition cfg totalQuantity p cp).1) pos

/-! ## Fill and close correlation (OrderManager._check_for_updates)

The active-positions map is modelled as an association list in
insertion order, as Python dict iteration preserves it; parent order
ids are the keys.  A position record without a recorded fill price has
avg_cost none (the dict key is absent in the source). -/

/-- active_positions: parent order id to tracked position record. -/
abbrev Positions := List (ℤ × PositionState)

/-- One entry of the order-status queue. -/
structure StatusUpdate where
  orderId : ℤ
  status : String
  avgFillPrice : ℚ
deriving DecidableEq, Repr

/-- Dictionary lookup by parent order id. -/
def lookupPos : Positions → ℤ → Option PositionState
  | [], _ => none
  | (k, v) :: rest, i => if k = i then some v else lookupPos rest i

/-- Record the average fill price onto the entry with the given key
(Python dict assignment; keys are unique). -/
def setAvgCost : Positions → ℤ → ℚ → Positions
  | [], _, _ => []
  | (k, v) :: rest, i, c =>
    if k = i then (k, { v with avg_cost := some c }) :: rest
    else (k, v) :: setAvgCost rest i c

/-- The terminal child statuses of _check_for_updates.  The source set
contains ApiCancelled and NOT Rejected. -/
def terminalStates : List String :=
  ["Filled", "Cancelled", "ApiCancelled", "Inactive"]

/-- Membership of an order id among a position's two child order ids. -/
def isChildOf (orderId : ℤ) (pd : PositionState) : Bool :=
  orderId = pd.stop_loss_order_id ∨ orderId = pd.take_profit_order_id

/-- The loop over active_positions: the first position whose child ids
contain the order id, provided the status is terminal; a matching
position with a non-terminal status is logged and the scan goes on. -/
def findParentToRemove : Positions → ℤ → String → Option ℤ
  | [], _, _ => none
  | (parentId, pd) :: rest, orderId, status =>
    if isChildOf orderId pd ∧ status ∈ terminalStates then some parentId
    else findParentToRemove rest orderId status

/-- Python del: drop the entry with the given key. -/
def removeKey : Positions → ℤ → Positions
  | [], _ => []
  | (k, v) :: rest, i => if k = i then rest else (k, v) :: removeKey rest i

/-- One iteration of the _check_for_updates drain loop on one status
update.  Case 1 (the update's id is a tracked PARENT and the status is
Filled): if no fill price is recorded yet, record it when positive and
stop processing this update; a parent that already has a recorded fill
price falls through to case 2.  Case 2: scan for a position owning the
id as a CHILD with a terminal status and delete it; otherwise no
change. -/
def checkStep (ps : Positions) (u : StatusUpdate) : Positions :=
  let case2 :=
    match findParentToRemove ps u.orderId u.status with
    | some parentId => removeKey ps parentId
    | none => ps
  match lookupPos ps u.orderId with
  | some pd =>
    if u.status = "Filled" then
      if pd.avg_cost = none then
        if u.avgFillPrice > 0 then setAvgCost ps u.orderId u.avgFillPrice
        else ps
      else case2
    else case2
  | none => case2

/-- OrderManager._check_for_updates: drain the status queue in order. -/
def checkForUpdates (ps : Positions) (statusQueue : List StatusUpdate) :
    Positions :=
  statusQueue.foldl checkStep ps

/-! ## Helper lemmas about the rounding functions -/

lemma truncQ_intCast (k : ℤ) : truncQ (k : ℚ) = k := by
  unfold truncQ
  split <;> simp

lemma roundDownToTick_mul_self (k : ℤ) (t : ℚ) (ht : 0 < t) :
    roundDownToTick ((k : ℚ) * t) t = (k : ℚ) * t := by
  unfold roundDownToTick
  rw [if_neg (not_le.mpr ht)]
  rw [mul_div_cancel_right₀ _ (ne_of_gt ht), truncQ_intCast]

lemma roundDownToTick_le (p t : ℚ) (ht : 0 < t) (hp : 0 ≤ p) :
    roundDownToTick p t ≤ p := by
  unfold roundDownToTick
  rw [if_neg (not_le.mpr ht)]
  have h0 : 0 ≤ p / t := div_nonneg hp (le_of_lt ht)
  have htr : truncQ (p / t) = ⌊p / t⌋ := by unfold truncQ; rw [if_pos h0]
  rw [htr]
  calc ((⌊p / t⌋ : ℚ)) * t ≤ (p / t) * t :=
        mul_le_mul_of_nonneg_right (Int.floor_le _) (le_of_lt ht)
    _ = p := div_mul_cancel₀ p (ne_of_gt ht)

lemma roundDownToTick_idem (p t : ℚ) (ht : 0 < t) :
    roundDownToTick (roundDownToTick p t) t = roundDownToTick p t := by
  have h : roundDownToTick p t = ((truncQ (p / t) : ℚ)) * t := by
    unfold roundDownToTick
    rw [if_neg (not_le.mpr ht)]
  rw [h, roundDownToTick_mul_self _ _ ht]

/-! ## Helper lemmas about the trailing stop -/

lemma modifyStopLoss_spec (cfg : TradeManagementConfig) (q : ℚ)
    (pos : PositionState) (ac : ℚ) (lvl : ℤ) :
    pos.stop_loss_price ≤ (modifyStopLoss cfg q pos ac lvl).1.stop_loss_price ∧
    (modifyStopLoss cfg q pos ac lvl).1.stop_loss_order_id =
      pos.stop_loss_order_id ∧
    ((modifyStopLoss cfg q pos ac lvl).2 = none →
      (modifyStopLoss cfg q pos ac lvl).1 = pos) ∧
    (∀ ord, (modifyStopLoss cfg q pos ac lvl).2 = some ord →
      ord.orderId = pos.stop_loss_order_id ∧
      pos.stop_loss_price < (modifyStopLoss cfg q pos ac lvl).1.stop_loss_price ∧
      (modifyStopLoss cfg q pos ac lvl).1.last_milestone_level = lvl ∧
      ord.auxPrice = (modifyStopLoss cfg q pos ac lvl).1.stop_loss_price) := by
  simp only [modifyStopLoss]
  split
  · rename_i h
    refine ⟨le_of_lt h, rfl, ?_, ?_⟩
    · intro hc
      exact Option.noConfusion hc
    · intro ord hord
      obtain rfl := Option.some.inj hord
      exact ⟨rfl, h, rfl, rfl⟩
  · refine ⟨le_refl _, rfl, fun _ => rfl, ?_⟩
    intro ord hord
    exact Option.noConfusion hord

lemma managePosition_cases (cfg : TradeManagementConfig) (q : ℚ)
    (pos : PositionState) (cp : Option ℚ) :
    managePosition cfg q pos cp = (pos, none) ∨
    ∃ ac lvl, pos.last_milestone_level < lvl ∧
      managePosition cfg q pos cp = modifyStopLoss cfg q pos ac lvl := by
  simp only [managePosition]
  split
  · exact Or.inl rfl
  · split
    · exact Or.inl rfl
    · split
      · exact Or.inl rfl
      · split
        · exact Or.inl rfl
        · split
          · split
            · rename_i hlvl
              exact Or.inr ⟨_, _, hlvl, rfl⟩
            · exact Or.inl rfl
          · exact Or.inl rfl

lemma managePosition_spec (cfg : TradeManagementConfig) (q : ℚ)
    (pos : PositionState) (cp : Option ℚ) :
    pos.stop_loss_price ≤ (managePosition cfg q pos cp).1.stop_loss_price ∧
    pos.last_milestone_level ≤
      (managePosition cfg q pos cp).1.last_milestone_level ∧
    (managePosition cfg q pos cp).1.stop_loss_order_id =
      pos.stop_loss_order_id ∧
    ((managePosition cfg q pos cp).2 = none →
      (managePosition cfg q pos cp).1 = pos) ∧
    (∀ ord, (managePosition cfg q pos cp).2 = some ord →
      ord.orderId = pos.stop_loss_order_id ∧
      pos.stop_loss_price < (managePosition cfg q pos cp).1.stop_loss_price ∧
      pos.last_milestone_level <
        (managePosition cfg q pos cp).1.last_milestone_level ∧
      ord.auxPrice = (managePosition cfg q pos cp).1.stop_loss_price) := by
  rcases managePosition_cases cfg q pos cp with h | ⟨ac, lvl, hlvl, h⟩
  · rw [h]
    exact ⟨le_refl _, le_refl _, rfl, fun _ => rfl,
      fun _ hc => Option.noConfusion hc⟩
  · rw [h]
    obtain ⟨h1, h2, h3, h4⟩ := modifyStopLoss_spec cfg q pos ac lvl
    refine ⟨h1, ?_, h2, h3, ?_⟩
    · rcases hr : (modifyStopLoss cfg q pos ac lvl).2 with _ | ord
      · rw [h3 hr]
      · rw [(h4 ord hr).2.2.1]
        exact le_of_lt hlvl
    · intro ord hord
      obtain ⟨ha, hb, hc, hd⟩ := h4 ord hord
      exact ⟨ha, hb, by rw [hc]; exact hlvl, hd⟩

lemma managePositionRun_mono (cfg : TradeManagementConfig) (q : ℚ)
    (prices : List (Option ℚ)) :
    ∀ pos : PositionState,
      pos.stop_loss_price ≤
        (managePositionRun cfg q pos prices).stop_loss_price ∧
      pos.last_milestone_level ≤
        (managePositionRun cfg q pos prices).last_milestone_level ∧
      (managePositionRun cfg q pos prices).stop_loss_order_id =
        pos.stop_loss_order_id := by
  induction prices with
  | nil => exact fun pos => ⟨le_refl _, le_refl _, rfl⟩
  | cons cp rest ih =>
    intro pos
    obtain ⟨h1, h2, h3, _, _⟩ := managePosition_spec cfg q pos cp
    obtain ⟨g1, g2, g3⟩ := ih (managePosition cfg q pos cp).1
    simp only [managePositionRun, List.foldl] at g1 g2 g3 ⊢
    exact ⟨le_trans h1 g1, le_trans h2 g2, by rw [g3, h3]⟩

/-! ## Helper lemmas about the status-update step -/

lemma lookupPos_setAvgCost_self (i : ℤ) (c : ℚ) :
    ∀ ps : Positions,
      lookupPos (setAvgCost ps i c) i =
        (lookupPos ps i).map fun pd => { pd with avg_cost := some c } := by
  intro ps
  induction ps with
  | nil => rfl
  | cons e rest ih =>
    obtain ⟨k, v⟩ := e
    by_cases hk : k = i
    · subst hk
      simp [setAvgCost, lookupPos]
    · simp only [setAvgCost, if_neg hk, lookupPos]
      exact ih

lemma lookupPos_setAvgCost_ne (i j : ℤ) (c : ℚ) (hj : j ≠ i) :
    ∀ ps : Positions,
      lookupPos (setAvgCost ps i c) j = lookupPos ps j := by
  intro ps
  induction ps with
  | nil => rfl
  | cons e rest ih =>
    obtain ⟨k, v⟩ := e
    by_cases hk : k = i
    · subst hk
      have hkj : ¬ (k = j) := fun hc => hj hc.symm
      simp only [setAvgCost, if_pos rfl, lookupPos]
      rw [if_neg hkj, if_neg hkj]
    · by_cases hkj : k = j
      · subst hkj
        simp [setAvgCost, lookupPos, hk]
      · simp only [setAvgCost, if_neg hk, lookupPos]
        rw [if_neg hkj, if_neg hkj]
        exact ih

lemma findParentToRemove_none_of_not_terminal (c : ℤ) (st : String)
    (h : st ∉ terminalStates) :
    ∀ ps : Positions, findParentToRemove ps c st = none := by
  intro ps
  induction ps with
  | nil => rfl
  | cons e rest ih =>
    obtain ⟨k, v⟩ := e
    simp only [findParentToRemove]
    split
    · rename_i hc
      exact absurd hc.2 h
    · exact ih

lemma findParentToRemove_mem (c : ℤ) (st : String) (pid : ℤ) :
    ∀ ps : Positions, findParentToRemove ps c st = some pid →
      pid ∈ ps.map Prod.fst := by
  intro ps
  induction ps with
  | nil => intro h; cases h
  | cons e rest ih =>
    obtain ⟨k, v⟩ := e
    simp only [findParentToRemove]
    split
    · intro h
      obtain rfl := Option.some.inj h
      simp
    · intro h
      simp only [List.map_cons, List.mem_cons]
      exact Or.inr (ih h)

lemma removeKey_length (i : ℤ) :
    ∀ ps : Positions, i ∈ ps.map Prod.fst →
      (removeKey ps i).length + 1 = ps.length := by
  intro ps
  induction ps with
  | nil => intro h; cases h
  | cons e rest ih =>
    obtain ⟨k, v⟩ := e
    intro h
    by_cases hk : k = i
    · subst hk
      simp [removeKey]
    · have hmem : i ∈ rest.map Prod.fst := by
        rcases List.mem_cons.mp h with h1 | h1
        · exact absurd h1.symm hk
        · exact h1
      simp only [removeKey, if_neg hk, List.length_cons]
      rw [← ih hmem]

end BotORB

namespace BotORB

/-! ## Claim C8: properties of the tick rounding functions -/

/-- C8 counterexample.  The claim asserts that round-down-to-tick never
increases a price, for EVERY price and positive tick.  Decimal
ROUND_DOWN truncates toward zero, so the negative price -0.07 with
tick 0.05 rounds UP to -0.05, refuting the universally quantified
claim. -/
theorem claim_C8_counterexample :
    roundDownToTick (-7/100) (5/100) = -1/20 ∧ ¬ ((-1/20 : ℚ) ≤ -7/100) := by
  constructor
  · have hceil : (⌈-((7 : ℚ)/5)⌉ : ℤ) = -1 := by
      rw [Int.ceil_neg]
      norm_num
    unfold roundDownToTick truncQ
    norm_num
    rw [hceil]
    norm_num
  · norm_num

/-- C8 (amended): round-down-to-tick maps every tick-aligned price to
itself (and is idempotent), and it never increases a NON-NEGATIVE
price, for every positive tick size; round-half-to-even of the decimal
price 19.675 with tick 0.05 yields 19.70, the even multiple 394 of the
tick, and no even multiple of the tick lies closer to 19.675. -/
theorem claim_C8_thm :
    (∀ (k : ℤ) (t : ℚ), 0 < t → roundDownToTick ((k : ℚ) * t) t = (k : ℚ) * t) ∧
    (∀ p t : ℚ, 0 < t → roundDownToTick (roundDownToTick p t) t = roundDownToTick p t) ∧
    (∀ p t : ℚ, 0 < t → 0 ≤ p → roundDownToTick p t ≤ p) ∧
    (roundToTickSize (19675/1000) (5/100) = ((394 : ℤ) : ℚ) * (5/100) ∧
      2 ∣ (394 : ℤ) ∧
      ∀ k : ℤ, 2 ∣ k →
        |((19675 : ℚ)/1000) - ((394 : ℤ) : ℚ) * (5/100)| ≤
          |((19675 : ℚ)/1000) - (k : ℚ) * (5/100)|) := by
  refine ⟨fun k t ht => roundDownToTick_mul_self k t ht,
          fun p t ht => roundDownToTick_idem p t ht,
          fun p t ht hp => roundDownToTick_le p t ht hp,
          ?_, ⟨197, rfl⟩, ?_⟩
  · norm_num [roundToTickSize, roundHalfEvenQ]
  · rintro k ⟨m, rfl⟩
    have habs : |((19675 : ℚ)/1000) - ((394 : ℤ) : ℚ) * (5/100)| = 1/40 := by
      have h : ((19675 : ℚ)/1000) - ((394 : ℤ) : ℚ) * (5/100) = -(1/40) := by
        push_cast
        norm_num
      rw [h, abs_neg, abs_of_pos]
      norm_num
    rw [habs]
    rcases le_or_lt m 196 with hm | hm
    · have hc : ((m : ℚ)) ≤ 196 := by exact_mod_cast hm
      refine le_trans ?_ (le_abs_self _)
      push_cast
      linarith
    · have hc : (197 : ℚ) ≤ (m : ℚ) := by exact_mod_cast hm
      refine le_trans ?_ (neg_le_abs _)
      push_cast
      linarith

/-- C8 witness: the amended theorem applied at tick 0.05, aligned price
3 * 0.05, and price 19.67. -/
theorem claim_C8_witness :
    roundDownToTick (((3 : ℤ) : ℚ) * (5/100)) (5/100) = ((3 : ℤ) : ℚ) * (5/100) ∧
    roundDownToTick ((1967 : ℚ)/100) (5/100) ≤ (1967 : ℚ)/100 ∧
    roundToTickSize (19675/1000) (5/100) = ((394 : ℤ) : ℚ) * (5/100) := by
  refine ⟨claim_C8_thm.1 3 (5/100) (by norm_num),
          claim_C8_thm.2.2.1 (1967/100) (5/100) (by norm_num) (by norm_num),
          claim_C8_thm.2.2.2.1⟩

/-! ## Claim C1: bracket prices for entry 1.48, tp 50 pct, sl 20 pct -/

/-- C1 counterexample.  The claim asserts take-profit 2.22 and
stop-loss 1.18 for entry price 1.48 with tick size 0.01; the source
ignores the tick argument, computes price-level SPX ticks of 0.05 for
both levels (2.22 and 1.184 are below 3.00), and rounds down, giving
take-profit 2.20 and stop-loss 1.15. -/
theorem claim_C1_counterexample :
    (createBracketOrders ⟨50, 20, ⟨10, 10⟩⟩ 100 101 102 (148/100) 2 "BUY"
        (1/100)).map (fun p => (p.1.lmtPrice, p.2.auxPrice)) =
      some (11/5, 23/20) ∧
    ((11/5 : ℚ), (23/20 : ℚ)) ≠ ((111/50 : ℚ), (59/50 : ℚ)) := by
  constructor
  · norm_num [createBracketOrders, getSpxTickSize, roundDownToTick, truncQ]
  · norm_num [Prod.ext_iff]

/-- C1 (amended): for an entry (parent limit) price of 1.48 with
take-profit 50 pct and stop-loss 20 pct, _create_bracket_orders ignores
the min_tick argument entirely, derives the SPX tick 0.05 for each
price level from the level itself, and produces take-profit limit 2.20
and stop-loss aux price 1.15 by decimal round-down. -/
theorem claim_C1_thm (minTick : ℚ) :
    (createBracketOrders ⟨50, 20, ⟨10, 10⟩⟩ 100 101 102 (148/100) 2 "BUY"
        minTick).map (fun p => (p.1.lmtPrice, p.2.auxPrice)) =
      some (11/5, 23/20) := by
  norm_num [createBracketOrders, getSpxTickSize, roundDownToTick, truncQ]

/-! ## Claim C6: the trade-direction decision table -/

/-- C6: for every spot and strike, a bullish signal with the strike
above the spot buys a call, with the strike below buys a put, and the
two bearish branches map identically to the bullish ones. -/
theorem claim_C6_thm (spotPrice strikePrice : ℚ) :
    (strikePrice > spotPrice →
      makeTradeDecision SignalType.BUY spotPrice strikePrice = some 'C' ∧
      makeTradeDecision SignalType.SELL spotPrice strikePrice = some 'C') ∧
    (strikePrice < spotPrice →
      makeTradeDecision SignalType.BUY spotPrice strikePrice = some 'P' ∧
      makeTradeDecision SignalType.SELL spotPrice strikePrice = some 'P') := by
  constructor
  · intro h
    constructor <;> simp [makeTradeDecision, h]
  · intro h
    have h2 : ¬ (strikePrice > spotPrice) := not_lt.mpr (le_of_lt h)
    constructor <;> simp [makeTradeDecision, h2]

/-- C6 witness: the table evaluated at spot 450 with strikes 455 and
445, covering all four documented cells. -/
theorem claim_C6_witness :
    makeTradeDecision SignalType.BUY 450 455 = some 'C' ∧
    makeTradeDecision SignalType.SELL 450 455 = some 'C' ∧
    makeTradeDecision SignalType.BUY 450 445 = some 'P' ∧
    makeTradeDecision SignalType.SELL 450 445 = some 'P' := by
  have h1 := (claim_C6_thm 450 455).1 (by norm_num)
  have h2 := (claim_C6_thm 450 445).2 (by norm_num)
  exact ⟨h1.1, h1.2, h2.1, h2.2⟩

/-! ## Claim C7: option price discovery -/

/-- C7 counterexample.  The claim asserts that a non-positive value at
each step falls through to the next candidate; for market data with
ask 0 and last 5, the source keeps the ask (only a missing value or
the -1 sentinel falls through), fails the final positivity check and
aborts, whereas the claimed rule would return 5. -/
theorem claim_C7_counterexample :
    fetchOptionPrice (some ⟨some 0, some 5, none⟩) = none ∧
    specPriceDiscovery (some ⟨some 0, some 5, none⟩) = some 5 ∧
    (none : Option ℚ) ≠ some 5 := by
  refine ⟨?_, ?_, by simp⟩
  · simp [fetchOptionPrice]
  · simp [specPriceDiscovery, pickPositive, Option.orElse]

/-- C7 (amended): the preference order is ask, then last, then previous
close, where a step falls through exactly when its value is missing or
the IB sentinel -1 (a present non-positive value other than -1 does not
fall through); whatever the chain selects is returned only when
strictly positive and otherwise the trade aborts, and missing market
data aborts. -/
theorem claim_C7_thm (md : MarketData) :
    (∀ p : ℚ, md.ask = some p → p ≠ -1 →
      fetchOptionPrice (some md) = if 0 < p then some p else none) ∧
    ((md.ask = none ∨ md.ask = some (-1)) →
      ∀ p : ℚ, md.last = some p → p ≠ -1 →
        fetchOptionPrice (some md) = if 0 < p then some p else none) ∧
    ((md.ask = none ∨ md.ask = some (-1)) →
      (md.last = none ∨ md.last = some (-1)) →
      fetchOptionPrice (some md) =
        match md.close with
        | some p => if 0 < p then some p else none
        | none => none) ∧
    fetchOptionPrice (none : Option MarketData) = none := by
  refine ⟨?_, ?_, ?_, rfl⟩
  · intro p hp hne
    have hcond : ¬ (some p = none ∨ some p = (some (-1) : Option ℚ)) := by
      simp [hne]
    have h1 : ¬ (md.ask = none ∨ md.ask = some (-1)) := by
      rw [hp]
      exact hcond
    simp only [fetchOptionPrice, hp]
    rw [if_neg hcond, if_neg hcond]
  · intro hask p hp hne
    have hcond : ¬ (some p = none ∨ some p = (some (-1) : Option ℚ)) := by
      simp [hne]
    simp only [fetchOptionPrice]
    rw [if_pos hask, hp, if_neg hcond]
  · intro hask hlast
    simp only [fetchOptionPrice]
    rw [if_pos hask, if_pos hlast]

/-- C7 witness: the amended behavior evaluated on concrete snapshots:
a positive ask 3; an ask of -1 falling back to last 5; ask and last
both -1 falling back to close 2. -/
theorem claim_C7_witness :
    fetchOptionPrice (some ⟨some 3, some 7, some 9⟩) = some 3 ∧
    fetchOptionPrice (some ⟨some (-1), some 5, some 9⟩) = some 5 ∧
    fetchOptionPrice (some ⟨none, some (-1), some 2⟩) = some 2 := by
  refine ⟨?_, ?_, ?_⟩
  · have h := (claim_C7_thm ⟨some 3, some 7, some 9⟩).1 3 rfl (by norm_num)
    rw [h, if_pos (by norm_num)]
  · have h := (claim_C7_thm ⟨some (-1), some 5, some 9⟩).2.1 (Or.inr rfl) 5 rfl
      (by norm_num)
    rw [h, if_pos (by norm_num)]
  · have h := (claim_C7_thm ⟨none, some (-1), some 2⟩).2.2.1 (Or.inl rfl)
      (Or.inr rfl)
    rw [h]
    norm_num

/-! ## Claim C2: window assignment in the breakout aggregator -/

/-- C2: code-bug evidence.  With a 300-second window, the source
derives the window from the first buffered bar's minute: for a first
bar at unix time 187 (00:03:07) the window start is 180 (00:03:00)
rather than floor(187/300)*300 = 0, and a bar at unix time 400 — which
lies in a DIFFERENT absolute 300-second window than the first bar —
is folded into the same candle buffer. -/
theorem claim_C2_thm :
    windowStartUs (187 * 1000000) 300 = 180 * 1000000 ∧
    (187 * 1000000) / (300 * 1000000) * (300 * 1000000) ≠ 180 * 1000000 ∧
    (187 * 1000000) / (300 * 1000000) ≠ (400 * 1000000) / (300 * 1000000) ∧
    (addRealtimeBar
        ⟨300, 60, [⟨187 * 1000000, 4000, 4000, 4000, 4000, 10⟩]⟩
        ⟨400 * 1000000, 4000, 4000, 4000, 4000, 10⟩ 4000 3990).1.fiveSecondBars
      = [⟨187 * 1000000, 4000, 4000, 4000, 4000, 10⟩,
         ⟨400 * 1000000, 4000, 4000, 4000, 4000, 10⟩] := by
  refine ⟨by norm_num [windowStartUs], by norm_num, by norm_num, rfl⟩

/-! ## Claim C3: closing a candle on the successor bar -/

/-- C3: code-bug evidence.  With a 60-second window, eleven bars at
00:07 through 00:57 fold into one buffer, but the successor bar at
01:02 does NOT close and evaluate that candle: the source resets the
buffer, discarding the eleven bars unevaluated, returns NO SIGNAL and
leaves only the 01:02 bar buffered — although the discarded candle,
evaluated against the opening range [3990, 4000], is a bullish
breakout (the repository's own breakout test asserts a BUY signal
here). -/
theorem claim_C3_thm :
    (runBreakout ⟨60, 12, []⟩
        [⟨7 * 1000000, 4001, 4002, 8001/2, 8003/2, 10⟩,
         ⟨12 * 1000000, 4001, 4002, 8001/2, 8003/2, 10⟩,
         ⟨17 * 1000000, 4001, 4002, 8001/2, 8003/2, 10⟩,
         ⟨22 * 1000000, 4001, 4002, 8001/2, 8003/2, 10⟩,
         ⟨27 * 1000000, 4001, 4002, 8001/2, 8003/2, 10⟩,
         ⟨32 * 1000000, 4001, 4002, 8001/2, 8003/2, 10⟩,
         ⟨37 * 1000000, 4001, 4002, 8001/2, 8003/2, 10⟩,
         ⟨42 * 1000000, 4001, 4002, 8001/2, 8003/2, 10⟩,
         ⟨47 * 1000000, 4001, 4002, 8001/2, 8003/2, 10⟩,
         ⟨52 * 1000000, 4001, 4002, 8001/2, 8003/2, 10⟩,
         ⟨57 * 1000000, 4001, 4002, 8001/2, 8003/2, 10⟩,
         ⟨62 * 1000000, 4003, 4004, 4003, 8007/2, 10⟩] 4000 3990).2
      = BreakoutSignal.NOSIGNAL ∧
    (runBreakout ⟨60, 12, []⟩
        [⟨7 * 1000000, 4001, 4002, 8001/2, 8003/2, 10⟩,
         ⟨12 * 1000000, 4001, 4002, 8001/2, 8003/2, 10⟩,
         ⟨17 * 1000000, 4001, 4002, 8001/2, 8003/2, 10⟩,
         ⟨22 * 1000000, 4001, 4002, 8001/2, 8003/2, 10⟩,
         ⟨27 * 1000000, 4001, 4002, 8001/2, 8003/2, 10⟩,
         ⟨32 * 1000000, 4001, 4002, 8001/2, 8003/2, 10⟩,
         ⟨37 * 1000000, 4001, 4002, 8001/2, 8003/2, 10⟩,
         ⟨42 * 1000000, 4001, 4002, 8001/2, 8003/2, 10⟩,
         ⟨47 * 1000000, 4001, 4002, 8001/2, 8003/2, 10⟩,
         ⟨52 * 1000000, 4001, 4002, 8001/2, 8003/2, 10⟩,
         ⟨57 * 1000000, 4001, 4002, 8001/2, 8003/2, 10⟩,
         ⟨62 * 1000000, 4003, 4004, 4003, 8007/2, 10⟩] 4000 3990).1.fiveSecondBars
      = [⟨62 * 1000000, 4003, 4004, 4003, 8007/2, 10⟩] ∧
    checkBreakout
        (aggregateBars
          [⟨7 * 1000000, 4001, 4002, 8001/2, 8003/2, 10⟩,
           ⟨12 * 1000000, 4001, 4002, 8001/2, 8003/2, 10⟩,
           ⟨17 * 1000000, 4001, 4002, 8001/2, 8003/2, 10⟩,
           ⟨22 * 1000000, 4001, 4002, 8001/2, 8003/2, 10⟩,
           ⟨27 * 1000000, 4001, 4002, 8001/2, 8003/2, 10⟩,
           ⟨32 * 1000000, 4001, 4002, 8001/2, 8003/2, 10⟩,
           ⟨37 * 1000000, 4001, 4002, 8001/2, 8003/2, 10⟩,
           ⟨42 * 1000000, 4001, 4002, 8001/2, 8003/2, 10⟩,
           ⟨47 * 1000000, 4001, 4002, 8001/2, 8003/2, 10⟩,
           ⟨52 * 1000000, 4001, 4002, 8001/2, 8003/2, 10⟩,
           ⟨57 * 1000000, 4001, 4002, 8001/2, 8003/2, 10⟩]) 4000 3990
      = BreakoutSignal.BULLISH := by
  refine ⟨rfl, rfl, ?_⟩
  simp only [aggregateBars, checkBreakout, List.foldl, List.getLastD,
    max_self, min_self]
  norm_num

/-! ## Claim C9: breakout strategy construction -/

/-- C9: construction raises ValueError exactly when aggregation_seconds
is not a multiple of 5; for every multiple of 5 it succeeds and the
number of fine-grained bars per candle is aggregation_seconds // 5,
which covers the window exactly (5 bars-per-candle times 5 seconds
equals the window). -/
theorem claim_C9_thm (n : ℤ) :
    (¬ (5 ∣ n) → ∃ msg, breakoutStrategyInit n = Except.error msg) ∧
    (5 ∣ n →
      breakoutStrategyInit n = Except.ok (n, n.ediv 5) ∧ 5 * n.ediv 5 = n) := by
  constructor
  · intro h
    have hmod : n.emod 5 ≠ 0 := fun hc => h (Int.dvd_of_emod_eq_zero hc)
    exact ⟨_, by rw [breakoutStrategyInit, if_pos hmod]⟩
  · intro h
    have hmod : n.emod 5 = 0 := Int.emod_eq_zero_of_dvd h
    refine ⟨by rw [breakoutStrategyInit, if_neg (by simp [hmod])], ?_⟩
    rw [mul_comm]
    exact Int.ediv_mul_cancel h

/-- C4: for every tracked position, over any sequence of management
steps the stored stop price and milestone level never decrease and the
stop order id is preserved; a step that submits no modification leaves
the position unchanged; a step that submits one advances the stored
stop price and milestone level together, strictly, and the modify
order reuses the stored stop order id (no new id is allocated) and
carries the new stop as its aux price; _modify_stop_loss itself never
lowers the stored stop and any order it emits reuses the stored stop
order id. -/
theorem claim_C4_thm (cfg : TradeManagementConfig) (q : ℚ)
    (pos : PositionState) (prices : List (Option ℚ)) (cp : Option ℚ) :
    (pos.stop_loss_price ≤
        (managePositionRun cfg q pos prices).stop_loss_price ∧
      pos.last_milestone_level ≤
        (managePositionRun cfg q pos prices).last_milestone_level ∧
      (managePositionRun cfg q pos prices).stop_loss_order_id =
        pos.stop_loss_order_id) ∧
    ((managePosition cfg q pos cp).2 = none →
      (managePosition cfg q pos cp).1 = pos) ∧
    (∀ ord, (managePosition cfg q pos cp).2 = some ord →
      ord.orderId = pos.stop_loss_order_id ∧
      pos.stop_loss_price < (managePosition cfg q pos cp).1.stop_loss_price ∧
      pos.last_milestone_level <
        (managePosition cfg q pos cp).1.last_milestone_level ∧
      ord.auxPrice = (managePosition cfg q pos cp).1.stop_loss_price) ∧
    (∀ ac lvl,
      pos.stop_loss_price ≤
        (modifyStopLoss cfg q pos ac lvl).1.stop_loss_price ∧
      ∀ ord, (modifyStopLoss cfg q pos ac lvl).2 = some ord →
        ord.orderId = pos.stop_loss_order_id) := by
  obtain ⟨_, _, _, h4, h5⟩ := managePosition_spec cfg q pos cp
  refine ⟨managePositionRun_mono cfg q prices pos, h4, h5, ?_⟩
  intro ac lvl
  obtain ⟨g1, _, _, g4⟩ := modifyStopLoss_spec cfg q pos ac lvl
  exact ⟨g1, fun ord hord => (g4 ord hord).1⟩

/-- C4 witness: the spec scenario — avg cost 2.00, activation 10 pct,
trail 10 pct, stop-loss 20 pct, price 2.30, prior stop 1.60, milestone
level 0, tick 0.01 — fires a modification to 1.80 reusing stop order
id 102, with stop price and milestone level advancing together. -/
theorem claim_C4_witness :
    (managePosition ⟨50, 20, ⟨10, 10⟩⟩ 2
        ⟨102, 101, 1/100, 8/5, 0, some 2⟩ (some (23/10))).2 =
      some { orderId := 102, parentId := 0, action := "SELL",
             orderType := "STP", lmtPrice := 0, auxPrice := 9/5,
             totalQuantity := 2, tif := "GTC", transmit := true } ∧
    (8 : ℚ)/5 <
      (managePosition ⟨50, 20, ⟨10, 10⟩⟩ 2
        ⟨102, 101, 1/100, 8/5, 0, some 2⟩ (some (23/10))).1.stop_loss_price ∧
    (0 : ℤ) <
      (managePosition ⟨50, 20, ⟨10, 10⟩⟩ 2
        ⟨102, 101, 1/100, 8/5, 0, some 2⟩
          (some (23/10))).1.last_milestone_level := by
  have heval : (managePosition ⟨50, 20, ⟨10, 10⟩⟩ 2
      ⟨102, 101, 1/100, 8/5, 0, some 2⟩ (some (23/10))).2 =
      some { orderId := 102, parentId := 0, action := "SELL",
             orderType := "STP", lmtPrice := 0, auxPrice := 9/5,
             totalQuantity := 2, tif := "GTC", transmit := true } := by
    norm_num [managePosition, modifyStopLoss, roundDownToTick, truncQ]
  have h := (claim_C4_thm ⟨50, 20, ⟨10, 10⟩⟩ 2
      ⟨102, 101, 1/100, 8/5, 0, some 2⟩ [] (some (23/10))).2.2.1 _ heval
  exact ⟨heval, h.2.1, h.2.2.1⟩

/-- C10: when disconnected, get_next_request_id returns the sentinel
-1 and leaves the counter unchanged; when connected, it returns the
current counter and advances it by exactly the requested count, so two
successive connected calls (the first reserving at least one id)
return strictly increasing ids delimiting adjacent contiguous
blocks. -/
theorem claim_C10_thm (s : ConnectorState) (n m : ℤ) :
    (s.isConnected = false → getNextRequestId s n = (-1, s)) ∧
    (s.isConnected = true →
      (getNextRequestId s n).1 = s.nextRequestId ∧
      (getNextRequestId s n).2 =
        { s with nextRequestId := s.nextRequestId + n } ∧
      (1 ≤ n →
        (getNextRequestId (getNextRequestId s n).2 m).1 =
          s.nextRequestId + n ∧
        s.nextRequestId < (getNextRequestId (getNextRequestId s n).2 m).1)) := by
  constructor
  · intro h
    simp [getNextRequestId, h]
  · intro h
    refine ⟨by simp [getNextRequestId, h], by simp [getNextRequestId, h], ?_⟩
    intro hn
    constructor
    · simp [getNextRequestId, h]
    · simp only [getNextRequestId, h, Bool.not_true, Bool.false_eq_true,
        if_false]
      linarith

/-- C10 witness: a disconnected call at counter 100 yields -1 leaving
the state unchanged; connected calls reserving 3 and then 1 ids
return 100 and 103. -/
theorem claim_C10_witness :
    getNextRequestId ⟨false, 100⟩ 3 = (-1, ⟨false, 100⟩) ∧
    (getNextRequestId ⟨true, 100⟩ 3).1 = 100 ∧
    (getNextRequestId (getNextRequestId ⟨true, 100⟩ 3).2 1).1 = 103 ∧
    (100 : ℤ) < 103 := by
  have h1 := (claim_C10_thm ⟨false, 100⟩ 3 1).1 rfl
  have h2 := (claim_C10_thm ⟨true, 100⟩ 3 1).2 rfl
  refine ⟨h1, h2.1, ?_, by norm_num⟩
  have h3 := (h2.2.2 (by norm_num)).1
  rw [h3]
  norm_num

/-- C9 witness: construction succeeds at 300 seconds with 60 bars per
candle and fails at 7 seconds. -/
theorem claim_C9_witness :
    breakoutStrategyInit 300 = Except.ok (300, 60) ∧
    (∃ msg, breakoutStrategyInit 7 = Except.error msg) := by
  refine ⟨?_, (claim_C9_thm 7).1 (by decide)⟩
  have h := ((claim_C9_thm 300).2 (by decide)).1
  rw [h]
  rfl

/-! ## Claim C5: processing the order-status queue -/

/-- C5 counterexample.  The claim lists rejected among the terminal
child statuses and says fill recording happens on the parent FIRST
Filled event with subsequent fills ignored.  The source terminal set
is Filled, Cancelled, ApiCancelled, Inactive — a child status Rejected
removes nothing; and a first Filled event carrying a non-positive
avgFillPrice records nothing, so a SUBSEQUENT fill does change state
by recording its price. -/
theorem claim_C5_counterexample :
    checkStep [(100, ⟨102, 101, 1/100, 23/20, 0, some (37/25)⟩)]
        ⟨102, "Rejected", 0⟩ =
      [(100, ⟨102, 101, 1/100, 23/20, 0, some (37/25)⟩)] ∧
    checkStep [(100, ⟨102, 101, 1/100, 23/20, 0, none⟩)]
        ⟨100, "Filled", 0⟩ =
      [(100, ⟨102, 101, 1/100, 23/20, 0, none⟩)] ∧
    checkStep [(100, ⟨102, 101, 1/100, 23/20, 0, none⟩)]
        ⟨100, "Filled", 3/2⟩ =
      [(100, ⟨102, 101, 1/100, 23/20, 0, some (3/2)⟩)] ∧
    ([(100, ⟨102, 101, 1/100, 23/20, 0, some (3/2)⟩)] : Positions) ≠
      [(100, ⟨102, 101, 1/100, 23/20, 0, none⟩)] := by
  refine ⟨rfl, rfl, ?_, by simp⟩
  norm_num [checkStep, lookupPos, setAvgCost]

/-- C5 (amended): for every tracked-positions map and status event,
(1) a status outside the source terminal set Filled, Cancelled,
ApiCancelled, Inactive — including Rejected — changes nothing; (2) a
Filled event for a tracked parent with no recorded fill price and a
positive avgFillPrice records exactly that price on exactly that
entry; (3) once the parent has a recorded price a further Filled event
for it changes nothing (when the parent id is not also some child id);
(4) a terminal status for an id owned as a child removes exactly the
first owning position; (5) a terminal status matching no child changes
nothing. -/
theorem claim_C5_thm (ps : Positions) (u : StatusUpdate) :
    (u.status ∉ terminalStates → checkStep ps u = ps) ∧
    (∀ pd, lookupPos ps u.orderId = some pd → u.status = "Filled" →
      pd.avg_cost = none → 0 < u.avgFillPrice →
      lookupPos (checkStep ps u) u.orderId =
        some { pd with avg_cost := some u.avgFillPrice } ∧
      (∀ j, j ≠ u.orderId → lookupPos (checkStep ps u) j = lookupPos ps j)) ∧
    (∀ pd a, lookupPos ps u.orderId = some pd → u.status = "Filled" →
      pd.avg_cost = some a →
      findParentToRemove ps u.orderId u.status = none →
      checkStep ps u = ps) ∧
    (∀ pid, u.status ∈ terminalStates →
      (u.status = "Filled" → lookupPos ps u.orderId = none) →
      findParentToRemove ps u.orderId u.status = some pid →
      checkStep ps u = removeKey ps pid ∧
      (checkStep ps u).length + 1 = ps.length) ∧
    (u.status ∈ terminalStates →
      (u.status = "Filled" → lookupPos ps u.orderId = none) →
      findParentToRemove ps u.orderId u.status = none →
      checkStep ps u = ps) := by
  refine ⟨?_, ?_, ?_, ?_, ?_⟩
  · intro h
    have hfill : u.status ≠ "Filled" := fun hc =>
      h (by rw [hc]; simp [terminalStates])
    have hf := findParentToRemove_none_of_not_terminal u.orderId u.status h ps
    rcases hl : lookupPos ps u.orderId with _ | pd <;>
      simp [checkStep, hl, hfill, hf]
  · intro pd hl hfill hnone hpos
    have hstep : checkStep ps u = setAvgCost ps u.orderId u.avgFillPrice := by
      simp [checkStep, hl, hfill, hnone, hpos]
    refine ⟨?_, ?_⟩
    · rw [hstep, lookupPos_setAvgCost_self, hl]
      rfl
    · intro j hj
      rw [hstep, lookupPos_setAvgCost_ne u.orderId j u.avgFillPrice hj]
  · intro pd a hl hfill hsome hfind
    rw [hfill] at hfind
    simp [checkStep, hl, hfill, hsome, hfind]
  · intro pid hterm himp hfind
    have hstep : checkStep ps u = removeKey ps pid := by
      rcases hl : lookupPos ps u.orderId with _ | pd
      · simp [checkStep, hl, hfind]
      · have hfill : u.status ≠ "Filled" := fun hc => by
          rw [himp hc] at hl
          cases hl
        simp [checkStep, hl, hfill, hfind]
    refine ⟨hstep, ?_⟩
    rw [hstep]
    exact removeKey_length pid ps (findParentToRemove_mem u.orderId u.status pid ps hfind)
  · intro hterm himp hfind
    rcases hl : lookupPos ps u.orderId with _ | pd
    · simp [checkStep, hl, hfind]
    · have hfill : u.status ≠ "Filled" := fun hc => by
        rw [himp hc] at hl
        cases hl
      simp [checkStep, hl, hfill, hfind]

/-- C5 witness: the amended behavior at concrete states: a Submitted
child status changes nothing; a parent fill at 1.48 records 1.48 on
the tracked entry; a Cancelled child status removes the only owning
position. -/
theorem claim_C5_witness :
    checkStep [(100, ⟨102, 101, 1/100, 23/20, 0, some (37/25)⟩)]
        ⟨102, "Submitted", 0⟩ =
      [(100, ⟨102, 101, 1/100, 23/20, 0, some (37/25)⟩)] ∧
    lookupPos (checkStep [(100, ⟨102, 101, 1/100, 23/20, 0, none⟩)]
        ⟨100, "Filled", 37/25⟩) 100 =
      some ⟨102, 101, 1/100, 23/20, 0, some (37/25)⟩ ∧
    checkStep [(100, ⟨102, 101, 1/100, 23/20, 0, some (37/25)⟩)]
        ⟨102, "Cancelled", 0⟩ = [] := by
  refine ⟨?_, ?_, ?_⟩
  · exact (claim_C5_thm _ _).1 (by decide)
  · exact ((claim_C5_thm [(100, ⟨102, 101, 1/100, 23/20, 0, none⟩)]
      ⟨100, "Filled", 37/25⟩).2.1 ⟨102, 101, 1/100, 23/20, 0, none⟩
      rfl rfl rfl (by norm_num)).1
  · have h := ((claim_C5_thm
      [(100, ⟨102, 101, 1/100, 23/20, 0, some (37/25)⟩)]
      ⟨102, "Cancelled", 0⟩).2.2.2.1 100 (by decide)
      (fun hc => absurd hc (by decide)) rfl).1
    rw [h]
    rfl

end BotORB
